import Mathlib

/-!
# Verification of the ClaimStriker change-detection and reconciliation core

Shallow embedding of the core pipeline of the `claimstriker-app` repository:
the state diff engine (`src/lib/youtube/api.ts`), the claim normalizer
(`src/lib/youtube/contentId.ts`), the claim-detect worker
(`src/workers/claimDetect.ts`), the claim-sync worker
(`src/workers/claimSync.ts`) and the channel-sync worker.

Persistent entities (Prisma rows) are modelled as Lean structures, the
database as lists of rows, and each worker's per-item logic as a pure
state-passing function translated from the TypeScript source.
-/

namespace ClaimStriker

/-- Event categories of `CopyrightEvent.type` (Prisma enum). -/
inductive EventType where
  | CLAIM
  | STRIKE
  | MONETIZATION_CHANGE
  | REGION_RESTRICTION
deriving DecidableEq, Repr

/-- Event statuses of `CopyrightEvent.status` (Prisma enum). -/
inductive EventStatus where
  | ACTIVE
  | EXPIRED
  | WITHDRAWN
  | DISPUTED
  | RESOLVED
deriving DecidableEq, Repr

/-- The fields of `YouTubeVideoInfo` used by the diff engine and the
claim-detect / channel-sync workers. Optional TS fields (`string |
undefined`) become `Option String`. `blockedRegions` is a required array
in the TS type. -/
structure YouTubeVideoInfo where
  title : String := ""
  privacyStatus : Option String := none
  uploadStatus : Option String := none
  monetizationStatus : Option String := none
  blockedRegions : List String := []
  allowedRegions : List String := []
  viewCount : Option Nat := none
  likeCount : Option Nat := none
deriving DecidableEq, Repr

/-- `Partial<YouTubeVideoInfo>` restricted to the fields the diff engine
reads: every field, `blockedRegions` included, may be absent. This is also
the shape of the stored `previousState` JSON snapshot. -/
structure PartialYouTubeVideoInfo where
  privacyStatus : Option String := none
  uploadStatus : Option String := none
  blockedRegions : Option (List String) := none
  monetizationStatus : Option String := none
deriving DecidableEq, Repr

/-- JS string interpolation of a possibly-`undefined` value:
`` `${x}` `` renders `undefined` as `"undefined"`. -/
def jsInterp (o : Option String) : String :=
  match o with
  | some s => s
  | none => "undefined"

/-- The aggregate message for newly blocked regions
(`api.ts` line 188): `` `New region blocks: ${newBlockedRegions.join(', ')}` ``. -/
def newRegionBlocksMsg (regions : List String) : String :=
  "New region blocks: " ++ String.intercalate ", " regions

/-- First-observation message (`api.ts` line 176):
`` `Video is blocked in ${currentVideo.blockedRegions.length} regions` ``. -/
def firstSyncBlockedMsg (n : Nat) : String :=
  "Video is blocked in " ++ toString n ++ " regions"

/-- Upload-status regression message (`api.ts` line 198). -/
def uploadStatusChangedMsg (status : Option String) : String :=
  "Upload status changed from processed to " ++ jsInterp status

/-- Privacy regression message (`api.ts` line 208). -/
def privacyStatusChangedMsg (status : Option String) : String :=
  "Privacy status changed from public to " ++ jsInterp status

/-- The newly-blocked-region list (`api.ts` lines 183-185):
`currentVideo.blockedRegions.filter((r) => !previousVideo.blockedRegions?.includes(r))`.
The optional chaining yields `undefined` (falsy) when the previous list is
absent, so every region is kept in that case. -/
def newBlockedRegionsOf (currentVideo : YouTubeVideoInfo)
    (previousVideo : PartialYouTubeVideoInfo) : List String :=
  currentVideo.blockedRegions.filter fun r =>
    ! (match previousVideo.blockedRegions with
       | some l => l.contains r
       | none => false)

/-- Result record of `detectPotentialIssues`. -/
structure DetectResult where
  hasIssues : Bool
  changes : List String
deriving DecidableEq, Repr

/-- `detectPotentialIssues(currentVideo, previousVideo?)` from
`src/lib/youtube/api.ts` lines 163-213, translated rule for rule. -/
def detectPotentialIssues (currentVideo : YouTubeVideoInfo)
    (previousVideo : Option PartialYouTubeVideoInfo) : DetectResult :=
  match previousVideo with
  | none =>
      let changes : List String :=
        if currentVideo.blockedRegions.length > 0 then
          [firstSyncBlockedMsg currentVideo.blockedRegions.length]
        else []
      ⟨changes.length > 0, changes⟩
  | some prev =>
      let newBlockedRegions := newBlockedRegionsOf currentVideo prev
      let regionChanges : List String :=
        if newBlockedRegions.length > 0 then
          [newRegionBlocksMsg newBlockedRegions]
        else []
      let uploadChanges : List String :=
        if prev.uploadStatus = some "processed" ∧
           currentVideo.uploadStatus ≠ some "processed" then
          [uploadStatusChangedMsg currentVideo.uploadStatus]
        else []
      let privacyChanges : List String :=
        if prev.privacyStatus = some "public" ∧
           currentVideo.privacyStatus ≠ some "public" then
          [privacyStatusChangedMsg currentVideo.privacyStatus]
        else []
      let changes := regionChanges ++ uploadChanges ++ privacyChanges
      ⟨changes.length > 0, changes⟩

/-- The `Partial<YouTubeVideoInfo>` view of a full snapshot, with every
field present — used to express "identical current and previous state". -/
def YouTubeVideoInfo.toPartial (v : YouTubeVideoInfo) : PartialYouTubeVideoInfo :=
  { privacyStatus := v.privacyStatus
    uploadStatus := v.uploadStatus
    blockedRegions := some v.blockedRegions
    monetizationStatus := v.monetizationStatus }

/-- Concrete input: a snapshot object with no blocked-region list. -/
def prevNoRegionList : PartialYouTubeVideoInfo :=
  { privacyStatus := some "public", uploadStatus := some "processed",
    blockedRegions := none, monetizationStatus := none }

/-- Concrete current video state blocked in one region. -/
def currentBlockedDE : YouTubeVideoInfo :=
  { blockedRegions := ["DE"] }

/-- Current state whose blocked-region list contains a duplicate entry. -/
def currentDupDE : YouTubeVideoInfo :=
  { blockedRegions := ["DE", "DE"] }

/-- Previous snapshot with an empty blocked-region list. -/
def prevEmptyRegions : PartialYouTubeVideoInfo :=
  { blockedRegions := some [] }

/-- JS `\s` whitespace, restricted to its ASCII members (claimant names
are ASCII in everything this model is evaluated on). -/
def jsWhitespace (c : Char) : Bool :=
  c = ' ' || c = '\t' || c = '\n' || c = '\r' || c = '\x0b' || c = '\x0c'

/-- JS `String.prototype.trim` over a character list. -/
def jsTrim (l : List Char) : List Char :=
  ((l.dropWhile jsWhitespace).reverse.dropWhile jsWhitespace).reverse

/-- JS `\w` word characters (ASCII letters, digits, underscore). -/
def isWordChar (c : Char) : Bool :=
  c.isAlpha || c.isDigit || c = '_'

/-- Alternatives of the legal-suffix regex
`/\s+(inc\.?|llc\.?|ltd\.?|corp\.?|corporation|limited)$/i`, each optional
trailing period expanded, ordered so the dotted variant is preferred
exactly as the greedy `\.?` prefers it. -/
def legalSuffixes : List (List Char) :=
  ["inc.", "inc", "llc.", "llc", "ltd.", "ltd", "corp.", "corp",
   "corporation", "limited"].map String.data

/-- Remove a trailing whitespace run. -/
def dropTrailingWhitespace (l : List Char) : List Char :=
  (l.reverse.dropWhile jsWhitespace).reverse

/-- Whether `/\s+(alternative)$/` matches: the list ends in the
alternative, immediately preceded by at least one whitespace character. -/
def suffixMatchesAt (suf l : List Char) : Bool :=
  List.isSuffixOf suf l &&
    (match (l.take (l.length - suf.length)).getLast? with
     | some c => jsWhitespace c
     | none => false)

/-- One (non-global) replacement of the legal-suffix regex by the empty
string: the matched region — the maximal trailing whitespace run plus the
suffix alternative — is removed; without a match the list is unchanged. -/
def stripLegalSuffix (l : List Char) : List Char :=
  match legalSuffixes.find? (fun suf => suffixMatchesAt suf l) with
  | some suf => dropTrailingWhitespace (l.take (l.length - suf.length))
  | none => l

/-- `replace(/[^\w\s-]/g, '')`: keep only word characters, whitespace and
hyphens. -/
def stripPunctuation (l : List Char) : List Char :=
  l.filter fun c => isWordChar c || jsWhitespace c || c = '-'

/-- `replace(/\s+/g, ' ')`: collapse every whitespace run to one space.
The Boolean records whether the previous character was whitespace. -/
def collapseWhitespace : Bool → List Char → List Char
  | _, [] => []
  | prevWs, c :: rest =>
    if jsWhitespace c then
      if prevWs then collapseWhitespace true rest
      else ' ' :: collapseWhitespace true rest
    else c :: collapseWhitespace false rest

/-- `normalizeClaimantName` from `src/workers/claimDetect.ts` lines
186-194: lowercase, trim, strip one trailing legal-entity suffix, strip
punctuation except hyphens, collapse internal whitespace, trim again. -/
def normalizeClaimantName (name : String) : String :=
  String.mk (jsTrim (collapseWhitespace false (stripPunctuation
    (stripLegalSuffix (jsTrim (name.data.map Char.toLower))))))

/-- Numeric value of a digit run (regex captures are `\d+` runs). -/
def natOfDigits (ds : List Char) : Nat :=
  ds.foldl (fun n c => n * 10 + (c.toNat - 48)) 0

/-- Leftmost occurrence of the mandatory literal `PT` of the regex
`/PT(?:(\d+)H)?(?:(\d+)M)?(?:(\d+(?:\.\d+)?)S)?/` (which is unanchored:
JS `match` scans for the leftmost position where it succeeds, and with
every group optional it succeeds at the first `PT`). Returns the input
after that `PT`, or `none` when the regex cannot match at all. -/
def findPT : List Char → Option (List Char)
  | [] => none
  | 'P' :: 'T' :: rest => some rest
  | _ :: rest => findPT rest

/-- Greedy match of an optional group `(?:(\d+)U)?` (unit letter `U`) at
the head of the input: captures the digit run when it is non-empty and
immediately followed by the unit, consuming both; otherwise captures
nothing and consumes nothing. Backtracking inside `\d+` never helps: a
shorter run is still followed by a digit, not the unit letter. -/
def matchNumUnit (u : Char) (l : List Char) : Option (List Char) × List Char :=
  let ds := l.takeWhile Char.isDigit
  let rest := l.dropWhile Char.isDigit
  if ds.isEmpty then (none, l)
  else
    match rest with
    | c :: rest2 => if c = u then (some ds, rest2) else (none, l)
    | [] => (none, l)

/-- Greedy match of the optional seconds group `(?:(\d+(?:\.\d+)?)S)?` at
the head of the input, returning the captured characters. -/
def matchSecondsCapture (l : List Char) : Option (List Char) :=
  let ds := l.takeWhile Char.isDigit
  let rest := l.dropWhile Char.isDigit
  if ds.isEmpty then none
  else
    match rest with
    | 'S' :: _ => some ds
    | '.' :: rest2 =>
      let fs := rest2.takeWhile Char.isDigit
      let rest3 := rest2.dropWhile Char.isDigit
      if fs.isEmpty then none
      else
        match rest3 with
        | 'S' :: _ => some (ds ++ '.' :: fs)
        | _ => none
    | _ => none

/-- The three capture groups of the ISO-duration regex at its leftmost
match, or `none` when it does not match. -/
def isoRegexMatch (l : List Char) :
    Option (Option (List Char) × Option (List Char) × Option (List Char)) :=
  match findPT l with
  | none => none
  | some rest =>
    let hm := matchNumUnit 'H' rest
    let mm := matchNumUnit 'M' hm.2
    some (hm.1, mm.1, matchSecondsCapture mm.2)

/-- JS `parseFloat` restricted to the shapes the regex captures produce
(`\d+` or `\d+.\d+`), exact over `ℚ` — JS numbers are binary floats, but
the claims are settled on inputs where the idealized and float values
agree. -/
def jsParseFloat (l : List Char) : ℚ :=
  let ds := l.takeWhile Char.isDigit
  let rest := l.dropWhile Char.isDigit
  match rest with
  | '.' :: rest2 =>
    (natOfDigits ds : ℚ) +
      (natOfDigits (rest2.takeWhile Char.isDigit) : ℚ) /
        (10 : ℚ) ^ (rest2.takeWhile Char.isDigit).length
  | _ => (natOfDigits ds : ℚ)

/-- `parseIsoDuration` (inner helper of `parseMatchInfo`,
`contentId.ts` lines 384-393): `hours * 3600 + minutes * 60 + seconds`
from the regex captures, each absent capture defaulting to `'0'`; an input
the regex does not match yields 0. -/
def parseIsoDuration (duration : String) : ℚ :=
  match isoRegexMatch duration.data with
  | none => 0
  | some (h, m, s) =>
    jsParseFloat (h.getD ['0']) * 3600 + jsParseFloat (m.getD ['0']) * 60 +
      jsParseFloat (s.getD ['0'])

/-- `video_segment` of a match segment: `start` and `duration` are
required strings in the TS interface. -/
structure VideoSegment where
  start : String
  duration : String
deriving DecidableEq, Repr

/-- One entry of `matchInfo.matchSegments` (the fields `parseMatchInfo`
reads). -/
structure MatchSegment where
  video_segment : Option VideoSegment := none
  channel : Option String := none
deriving DecidableEq, Repr

/-- `ContentIdClaim.matchInfo` restricted to the field `parseMatchInfo`
reads. -/
structure MatchInfo where
  matchSegments : Option (List MatchSegment) := none
deriving DecidableEq, Repr

/-- Result record of `parseMatchInfo`. -/
structure ParsedMatchInfo where
  matchStartMs : ℤ
  matchEndMs : ℤ
  matchDurationSecs : ℚ
  matchType : String
deriving DecidableEq, Repr

/-- JS `s || fallback` on a string: the empty string is falsy. -/
def jsStringOr (s fallback : String) : String :=
  if s = "" then fallback else s

/-- JS `o || fallback` on an optional string: `undefined` and the empty
string are falsy. -/
def jsOrDefault (o : Option String) (fallback : String) : String :=
  match o with
  | some s => if s = "" then fallback else s
  | none => fallback

/-- `parseMatchInfo` from `src/lib/youtube/contentId.ts` lines 366-404:
takes the first match segment only, parses start/duration as ISO-8601
durations (defaulting to `PT0S`), converts to milliseconds with
`Math.round` (round half up, the behaviour of `round` on `ℚ`). -/
def parseMatchInfo (matchInfo : Option MatchInfo) : Option ParsedMatchInfo :=
  match matchInfo with
  | none => none
  | some mi =>
    match mi.matchSegments with
    | none => none
    | some [] => none
    | some (segment :: _) =>
      match segment.video_segment with
      | none => none
      | some videoSegment =>
        let startSecs := parseIsoDuration (jsStringOr videoSegment.start "PT0S")
        let durationSecs := parseIsoDuration (jsStringOr videoSegment.duration "PT0S")
        some { matchStartMs := round (startSecs * 1000)
               matchEndMs := round ((startSecs + durationSecs) * 1000)
               matchDurationSecs := durationSecs
               matchType := jsOrDefault segment.channel "unknown" }

/-- Match info whose first segment carries duration strings the ISO
regex does not match anywhere. -/
def malformedDurationsInfo : MatchInfo :=
  { matchSegments := some
      [{ video_segment := some { start := "bogus", duration := "garbage" } }] }

/-- Match info with fractional second values whose rounded endpoints
collapse. -/
def fractionalDurationsInfo : MatchInfo :=
  { matchSegments := some
      [{ video_segment := some { start := "PT0.0005S", duration := "PT0.0005S" } }] }

/-- A 90-second match segment starting at 0. -/
def ninetySecondSegment : VideoSegment :=
  { start := "PT0S", duration := "PT1M30S" }

/-- Match info holding just the 90-second segment. -/
def ninetySecondInfo : MatchInfo :=
  { matchSegments := some [{ video_segment := some ninetySecondSegment }] }

/-- A policy rule: the TS interfaces declare `action` as required, but the
code reads it with optional chaining (`primaryRule.action?.toLowerCase()`),
so it is optional here. -/
structure PolicyRule where
  action : Option String := none
deriving DecidableEq, Repr

/-- The shape shared by `ContentIdClaim.policy` and
`ContentIdClaim.appliedPolicy` as far as `parsePolicyAction` reads them:
an optional list of rules. -/
structure PolicyObj where
  rules : Option (List PolicyRule) := none
deriving DecidableEq, Repr

/-- JS `toLowerCase`, per character (the action strings are ASCII). -/
def jsToLowerCase (s : String) : String :=
  String.mk (s.data.map Char.toLower)

/-- `parsePolicyAction` from `src/lib/youtube/contentId.ts` lines 409-422:
`appliedPolicy || policy`, then the first rule's action lowercased, with
`'unknown'` for a missing object, missing/empty rules, or a falsy
(absent or empty) action. -/
def parsePolicyAction (policy appliedPolicy : Option PolicyObj) : String :=
  let policyToCheck : Option PolicyObj :=
    match appliedPolicy with
    | some p => some p
    | none => policy
  match policyToCheck with
  | none => "unknown"
  | some p =>
    match p.rules with
    | none => "unknown"
    | some [] => "unknown"
    | some (primaryRule :: _) =>
      match primaryRule.action with
      | none => "unknown"
      | some a => jsStringOr (jsToLowerCase a) "unknown"

/-- A Content-ID claim (`ContentIdClaim`), restricted to the fields
`processContentIdClaim` reads. `timeCreated` is omitted: it only feeds the
`detectedAt` timestamp, which is outside this model. -/
structure ContentIdClaim where
  id : String
  assetId : String
  videoId : String
  status : String
  contentType : String
  policy : Option PolicyObj := none
  appliedPolicy : Option PolicyObj := none
  matchInfo : Option MatchInfo := none
deriving DecidableEq, Repr

/-- One `CopyrightEvent` row, restricted to the columns the workers read
or write. The JSON column `rawData` is split into its two stored shapes:
`changeDescription` models the path `['changeDescription']` written for
platform-observed changes, `rawClaim` the whole claim stored for
Content-ID events (each `none` when the other shape was stored). -/
structure CopyrightEvent where
  videoId : String
  type : EventType
  status : EventStatus
  youtubeClaimId : Option String := none
  assetId : Option String := none
  contentType : Option String := none
  claimType : Option String := none
  policyAction : Option String := none
  matchStartMs : Option ℤ := none
  matchEndMs : Option ℤ := none
  claimantId : Option String := none
  explanation : Option String := none
  changeDescription : Option String := none
  rawClaim : Option ContentIdClaim := none
deriving DecidableEq, Repr

/-- A `Claimant` row (the columns `createCopyrightEvent` writes). -/
structure Claimant where
  id : String
  name : String
  nameNormalized : String
  claimantType : String
deriving DecidableEq, Repr

/-- A `ClaimantStatistics` row. -/
structure ClaimantStatistics where
  claimantId : String
  totalClaims : Nat
deriving DecidableEq, Repr

/-- The persistent store as the workers see it. `nextClaimantId` models
the store's opaque unique-id generation for created claimants. -/
structure DB where
  events : List CopyrightEvent := []
  claimants : List Claimant := []
  claimantStats : List ClaimantStatistics := []
  nextClaimantId : Nat := 0
deriving DecidableEq, Repr

/-- The empty store. -/
def emptyDB : DB := {}

/-- `prisma.claimant.upsert` keyed on `nameNormalized`: create with the
display name on first reference (first-write-wins), empty update
otherwise; returns the claimant id. -/
def claimantUpsert (db : DB) (claimantName normalizedName : String) :
    DB × String :=
  match db.claimants.find? (fun c => c.nameNormalized == normalizedName) with
  | some c => (db, c.id)
  | none =>
    let cid := "claimant-" ++ toString db.nextClaimantId
    ({ db with
        claimants := db.claimants ++
          [{ id := cid, name := claimantName,
             nameNormalized := normalizedName, claimantType := "UNKNOWN" }]
        nextClaimantId := db.nextClaimantId + 1 }, cid)

/-- `prisma.claimantStatistics.upsert` keyed on `claimantId`: create with
`totalClaims = 1`, else atomic `increment: 1`. -/
def claimantStatsUpsert (db : DB) (claimantId : String) : DB :=
  match db.claimantStats.find? (fun s => s.claimantId == claimantId) with
  | some _ =>
    { db with
        claimantStats := db.claimantStats.map fun s =>
          if s.claimantId == claimantId then
            { s with totalClaims := s.totalClaims + 1 }
          else s }
  | none =>
    { db with
        claimantStats := db.claimantStats ++
          [{ claimantId := claimantId, totalClaims := 1 }] }

/-- `createCopyrightEvent` from `src/workers/claimDetect.ts` lines
133-184: optional claimant upsert plus statistics increment, then an
ACTIVE event whose `rawData.changeDescription` is the description. -/
def createCopyrightEvent (db : DB) (videoId : String) (ty : EventType)
    (description : String) (claimantName : Option String) : DB :=
  let step :=
    match claimantName with
    | some name =>
      let normalizedName := normalizeClaimantName name
      let up := claimantUpsert db name normalizedName
      (claimantStatsUpsert up.1 up.2, some up.2)
    | none => (db, (none : Option String))
  { step.1 with
      events := step.1.events ++
        [{ videoId := videoId, type := ty, status := EventStatus.ACTIVE,
           claimantId := step.2, explanation := some description,
           changeDescription := some description }] }

/-- The dedup query of `processClaimDetect` (`claimDetect.ts` lines
76-86): an ACTIVE event on this video with this category whose stored
`rawData.changeDescription` equals the change verbatim. -/
def detectedChangeMatcher (videoId : String) (ty : EventType)
    (change : String) (e : CopyrightEvent) : Bool :=
  e.videoId == videoId && e.type == ty &&
    e.status == EventStatus.ACTIVE && e.changeDescription == some change

/-- The per-change step of `processClaimDetect` (`claimDetect.ts` lines
75-103, persistence only): look for an existing ACTIVE duplicate, create
the event only when none exists. The spec names this operation
`recordDetectedChange`; detected changes always pass a null claimant. -/
def recordDetectedChange (db : DB) (videoId : String) (ty : EventType)
    (change : String) : DB :=
  match db.events.find? (detectedChangeMatcher videoId ty change) with
  | some _ => db
  | none => createCopyrightEvent db videoId ty change none

/-- The event row `recordDetectedChange` appends. -/
def newDetectedEvent (videoId : String) (ty : EventType)
    (description : String) : CopyrightEvent :=
  { videoId := videoId, type := ty, status := EventStatus.ACTIVE,
    explanation := some description, changeDescription := some description }

/-- Result of `processContentIdClaim`. -/
inductive ReconcileResult where
  | new
  | updated
  | unchanged
deriving DecidableEq, Repr

/-- The inline `mapStatus` of `processContentIdClaim`
(`claimSync.ts` lines 212-227): case-insensitive, defaulting to ACTIVE. -/
def mapStatus (status : String) : EventStatus :=
  match jsToLowerCase status with
  | "active" => EventStatus.ACTIVE
  | "inactive" => EventStatus.RESOLVED
  | "appealed" => EventStatus.DISPUTED
  | "disputed" => EventStatus.DISPUTED
  | "pending" => EventStatus.ACTIVE
  | "potential" => EventStatus.ACTIVE
  | _ => EventStatus.ACTIVE

/-- Update the first row satisfying `p` (the Prisma update keyed on the
row id that `find?` returned). -/
def updateFirst (p : CopyrightEvent → Bool)
    (f : CopyrightEvent → CopyrightEvent) :
    List CopyrightEvent → List CopyrightEvent
  | [] => []
  | e :: rest => if p e then f e :: rest else e :: updateFirst p f rest

/-- The field update `processContentIdClaim` applies to an existing row
when (status, policyAction) changed: exactly those two fields plus the
raw payload. -/
def updatedClaimFields (claim : ContentIdClaim) (e : CopyrightEvent) :
    CopyrightEvent :=
  { e with
      status := mapStatus claim.status
      policyAction := some (parsePolicyAction claim.policy claim.appliedPolicy)
      changeDescription := none
      rawClaim := some claim }

/-- `processContentIdClaim` from `src/workers/claimSync.ts` lines
195-278: look up by the claim's external identifier; create (category
STRIKE for a "block" policy action, else CLAIM) and return `new` when
absent; when present compare only (status, policyAction) and either
update those two fields plus the raw payload (returning `updated`) or
leave the store untouched (returning `unchanged`). -/
def processContentIdClaim (db : DB) (claim : ContentIdClaim)
    (videoId : String) : DB × ReconcileResult :=
  let existingEvent := db.events.find? (fun e => e.youtubeClaimId == some claim.id)
  let matchDetails := parseMatchInfo claim.matchInfo
  let policyAction := parsePolicyAction claim.policy claim.appliedPolicy
  let status := mapStatus claim.status
  let contentType := jsStringOr (jsToLowerCase claim.contentType) "unknown"
  let eventType := if policyAction = "block" then EventType.STRIKE else EventType.CLAIM
  match existingEvent with
  | some existing =>
    if existing.status ≠ status ∨ existing.policyAction ≠ some policyAction then
      ({ db with
          events := updateFirst (fun e => e.youtubeClaimId == some claim.id)
            (updatedClaimFields claim) db.events }, ReconcileResult.updated)
    else (db, ReconcileResult.unchanged)
  | none =>
    ({ db with
        events := db.events ++
          [{ videoId := videoId, youtubeClaimId := some claim.id,
             assetId := some claim.assetId, type := eventType,
             status := status, contentType := some contentType,
             claimType := some policyAction, policyAction := some policyAction,
             matchStartMs := matchDetails.map (fun d => d.matchStartMs),
             matchEndMs := matchDetails.map (fun d => d.matchEndMs),
             rawClaim := some claim }] }, ReconcileResult.new)

/-- The event row `processContentIdClaim` creates for a previously unseen
claim. -/
def newClaimEvent (claim : ContentIdClaim) (videoId : String) : CopyrightEvent :=
  { videoId := videoId, youtubeClaimId := some claim.id,
    assetId := some claim.assetId,
    type := if parsePolicyAction claim.policy claim.appliedPolicy = "block"
            then EventType.STRIKE else EventType.CLAIM,
    status := mapStatus claim.status,
    contentType := some (jsStringOr (jsToLowerCase claim.contentType) "unknown"),
    claimType := some (parsePolicyAction claim.policy claim.appliedPolicy),
    policyAction := some (parsePolicyAction claim.policy claim.appliedPolicy),
    matchStartMs := (parseMatchInfo claim.matchInfo).map (fun d => d.matchStartMs),
    matchEndMs := (parseMatchInfo claim.matchInfo).map (fun d => d.matchEndMs),
    rawClaim := some claim }

/-- A concrete active "block" claim used to instantiate the
reconciliation theorems. -/
def blockClaim : ContentIdClaim :=
  { id := "claim-1", assetId := "asset-1", videoId := "yt-vid-1",
    status := "active", contentType := "AUDIO",
    policy := some { rules := some [{ action := some "block" }] } }

/-- A `Video` row, restricted to the columns channel-sync and claim-detect
read or write for state tracking; the stored `previousState` JSON has the
shape of `Partial<YouTubeVideoInfo>`. -/
structure Video where
  id : String
  youtubeVideoId : String
  title : String := ""
  privacyStatus : Option String := none
  uploadStatus : Option String := none
  monetizationStatus : Option String := none
  blockedRegions : List String := []
  allowedRegions : List String := []
  viewCount : Option Nat := none
  likeCount : Option Nat := none
  previousState : Option PartialYouTubeVideoInfo := none
deriving DecidableEq, Repr

/-- The snapshot of a video row's currently stored column values (the
object literal of channel-sync lines 98-103). -/
def Video.storedSnapshot (v : Video) : PartialYouTubeVideoInfo :=
  { privacyStatus := v.privacyStatus
    uploadStatus := v.uploadStatus
    blockedRegions := some v.blockedRegions
    monetizationStatus := v.monetizationStatus }

/-- The existing-video update of `processChannelSync` (channel-sync worker
lines 83-105): refresh the observable columns from the freshly fetched
state; `previousState: existingVideo.previousState || {...}` keeps an
already-present snapshot and otherwise backfills it from the previously
stored column values — never from the fresh state. -/
def channelSyncUpdateVideo (existingVideo : Video)
    (videoInfo : YouTubeVideoInfo) : Video :=
  { existingVideo with
      title := videoInfo.title
      viewCount := videoInfo.viewCount
      likeCount := videoInfo.likeCount
      privacyStatus := videoInfo.privacyStatus
      uploadStatus := videoInfo.uploadStatus
      blockedRegions := videoInfo.blockedRegions
      allowedRegions := videoInfo.allowedRegions
      previousState := some (match existingVideo.previousState with
        | some ps => ps
        | none => existingVideo.storedSnapshot) }

/-- JS `x || undefined` on an optional string: `null` and the empty
string become `undefined`. -/
def jsOrUndefined (o : Option String) : Option String :=
  match o with
  | some s => if s = "" then none else some s
  | none => none

/-- The diff baseline of `processClaimDetect` (`claimDetect.ts` lines
48-56): the stored snapshot when present, otherwise a snapshot built from
the stored columns (with `|| undefined` on the string columns). -/
def claimDetectPreviousState (video : Video) : PartialYouTubeVideoInfo :=
  match video.previousState with
  | some ps => ps
  | none =>
    { privacyStatus := jsOrUndefined video.privacyStatus
      uploadStatus := jsOrUndefined video.uploadStatus
      blockedRegions := some video.blockedRegions
      monetizationStatus := jsOrUndefined video.monetizationStatus }

/-- The row update at the end of `processClaimDetect` (`claimDetect.ts`
lines 108-124): store the fresh state and replace `previousState` with a
snapshot of it. -/
def claimDetectUpdateVideo (video : Video)
    (currentVideo : YouTubeVideoInfo) : Video :=
  { video with
      privacyStatus := currentVideo.privacyStatus
      uploadStatus := currentVideo.uploadStatus
      blockedRegions := currentVideo.blockedRegions
      allowedRegions := currentVideo.allowedRegions
      viewCount := currentVideo.viewCount
      likeCount := currentVideo.likeCount
      previousState := some currentVideo.toPartial }

/-- The state-tracking core of `processClaimDetect` (lines 48-124) for a
video that is still accessible: the diff is computed against the stored
baseline of the un-updated row, and the row update — which replaces
`previousState` with the fresh snapshot — is the final write, a function
of the diff having been taken over the old state. -/
def claimDetectStep (video : Video) (currentVideo : YouTubeVideoInfo) :
    DetectResult × Video :=
  (detectPotentialIssues currentVideo (some (claimDetectPreviousState video)),
   claimDetectUpdateVideo video currentVideo)

/-- A stored video row that already carries a snapshot. -/
def storedVideo : Video :=
  { id := "video-1", youtubeVideoId := "yt-1",
    previousState := some prevEmptyRegions }

/-- One page's claim loop of `processClaimSync` (`claimSync.ts` lines
111-132), abstracted over the per-claim body `proc` — in the source
`processContentIdClaim`, whose Prisma calls may throw; a throw is
modelled as `Except.error`. `processContentIdClaim` performs at most one
write after its lookup, so a failed call leaves the store as it was when
the call started. The loop has no per-claim catch: the first error stops
it and propagates to the job's catch block, which records it on the
channel and rethrows. Counters are (totalClaims, newClaims,
updatedClaims); claims whose video is not in `videoIdMap` are skipped. -/
def processClaimsLoop
    (videoIdMap : List (String × String))
    (proc : ContentIdClaim → String → DB → Except String (DB × ReconcileResult)) :
    List ContentIdClaim → DB → Nat → Nat → Nat →
    DB × Except String (Nat × Nat × Nat)
  | [], db, total, newCount, updatedCount =>
    (db, Except.ok (total, newCount, updatedCount))
  | claim :: rest, db, total, newCount, updatedCount =>
    let total := total + 1
    match (videoIdMap.find? (fun p => p.1 == claim.videoId)).map Prod.snd with
    | none => processClaimsLoop videoIdMap proc rest db total newCount updatedCount
    | some videoId =>
      match proc claim videoId db with
      | Except.error e => (db, Except.error e)
      | Except.ok (db2, result) =>
        match result with
        | ReconcileResult.new =>
          processClaimsLoop videoIdMap proc rest db2 total (newCount + 1) updatedCount
        | ReconcileResult.updated =>
          processClaimsLoop videoIdMap proc rest db2 total newCount (updatedCount + 1)
        | ReconcileResult.unchanged =>
          processClaimsLoop videoIdMap proc rest db2 total newCount updatedCount

/-- A per-claim body that fails (as a thrown persistence error) on the
claim with identifier `bad` and otherwise behaves as
`processContentIdClaim`. -/
def failingProc (claim : ContentIdClaim) (videoId : String) (db : DB) :
    Except String (DB × ReconcileResult) :=
  if claim.id = "bad" then Except.error "persistence failure"
  else Except.ok (processContentIdClaim db claim videoId)

/-- A claim whose processing fails. -/
def badClaim : ContentIdClaim :=
  { id := "bad", assetId := "asset-2", videoId := "yt-2",
    status := "active", contentType := "AUDIO" }

/-- Video-id map covering both demo claims. -/
def demoVideoIdMap : List (String × String) :=
  [("yt-2", "video-2"), ("yt-vid-1", "video-1")]

end ClaimStriker

namespace ClaimStriker

/-- Two strings whose first characters differ are distinct. -/
theorem ne_of_data_head_ne {a b : String} (h : a.data.head? ≠ b.data.head?) :
    a ≠ b :=
  fun he => h (by rw [he])

theorem firstSyncBlockedMsg_head (n : Nat) :
    (firstSyncBlockedMsg n).data.head? = some 'V' := by
  rw [firstSyncBlockedMsg, String.data_append, String.data_append]; rfl

theorem newRegionBlocksMsg_head (rs : List String) :
    (newRegionBlocksMsg rs).data.head? = some 'N' := by
  rw [newRegionBlocksMsg, String.data_append]; rfl

theorem uploadStatusChangedMsg_head (s : Option String) :
    (uploadStatusChangedMsg s).data.head? = some 'U' := by
  rw [uploadStatusChangedMsg, String.data_append]; rfl

theorem privacyStatusChangedMsg_head (s : Option String) :
    (privacyStatusChangedMsg s).data.head? = some 'P' := by
  rw [privacyStatusChangedMsg, String.data_append]; rfl

/-- C7: with an identical previous snapshot no rule fires. -/
theorem detect_no_issues_on_unchanged_state (s : YouTubeVideoInfo) :
    detectPotentialIssues s (some s.toPartial) = ⟨false, []⟩ := by
  simp [detectPotentialIssues, newBlockedRegionsOf, YouTubeVideoInfo.toPartial,
    List.filter_eq_nil_iff]

/-- C9: when a previous snapshot object exists but its `blockedRegions`
field is absent, the membership test fails for every region, so every
currently blocked region counts as newly blocked and the aggregate
region-block message over the whole current list is emitted (the
first-observation message is not). -/
theorem detect_reports_all_regions_when_prev_list_absent
    (current : YouTubeVideoInfo) (prev : PartialYouTubeVideoInfo)
    (h : prev.blockedRegions = none) :
    newBlockedRegionsOf current prev = current.blockedRegions ∧
    (current.blockedRegions ≠ [] →
      (detectPotentialIssues current (some prev)).hasIssues = true ∧
      (detectPotentialIssues current (some prev)).changes.head? =
        some (newRegionBlocksMsg current.blockedRegions) ∧
      firstSyncBlockedMsg current.blockedRegions.length ∉
        (detectPotentialIssues current (some prev)).changes) := by
  have hnew : newBlockedRegionsOf current prev = current.blockedRegions := by
    simp [newBlockedRegionsOf, h]
  refine ⟨hnew, fun hne => ?_⟩
  have hlen : current.blockedRegions.length > 0 := by
    cases hcb : current.blockedRegions with
    | nil => exact absurd hcb hne
    | cons a l => simp [hcb]
  refine ⟨?_, ?_, ?_⟩
  · simp [detectPotentialIssues, hnew, hlen]
  · simp [detectPotentialIssues, hnew, hlen]
  · simp only [detectPotentialIssues, hnew, hlen, if_pos]
    intro hmem
    simp only [List.mem_append, List.mem_cons, List.not_mem_nil, or_false,
      List.mem_singleton] at hmem
    rcases hmem with hm | hm
    · rcases hm with hm | hm
      · exact ne_of_data_head_ne
          (by rw [firstSyncBlockedMsg_head, newRegionBlocksMsg_head]; decide) hm
      · revert hm
        split
        · intro hm
          rw [List.mem_singleton] at hm
          exact ne_of_data_head_ne
            (by rw [firstSyncBlockedMsg_head, uploadStatusChangedMsg_head]
                decide) hm
        · exact fun hm => absurd hm (List.not_mem_nil _)
    · revert hm
      split
      · intro hm
        rw [List.mem_singleton] at hm
        exact ne_of_data_head_ne
          (by rw [firstSyncBlockedMsg_head, privacyStatusChangedMsg_head]
              decide) hm
      · exact fun hm => absurd hm (List.not_mem_nil _)

theorem detect_reports_all_regions_when_prev_list_absent_witness :
    newBlockedRegionsOf currentBlockedDE prevNoRegionList =
      currentBlockedDE.blockedRegions ∧
    (detectPotentialIssues currentBlockedDE (some prevNoRegionList)).hasIssues
      = true := by
  obtain ⟨h1, h2⟩ :=
    detect_reports_all_regions_when_prev_list_absent currentBlockedDE
      prevNoRegionList (by decide)
  exact ⟨h1, (h2 (by decide)).1⟩

/-- C3 counterexample: with `current.blockedRegions = ["DE", "DE"]` and
`previous.blockedRegions = []`, the region `"DE"` is in the current list
and not in the previous one, yet it is listed twice — not exactly once —
inside the aggregate message, because the filter keeps both occurrences. -/
theorem newRegionBlocks_duplicate_region_counterexample :
    "DE" ∈ currentDupDE.blockedRegions ∧
    ¬ (newBlockedRegionsOf currentDupDE prevEmptyRegions).count "DE" = 1 ∧
    (newBlockedRegionsOf currentDupDE prevEmptyRegions).count "DE" = 2 ∧
    detectPotentialIssues currentDupDE (some prevEmptyRegions) =
      ⟨true, ["New region blocks: DE, DE"]⟩ := by
  refine ⟨by decide, by decide, by decide, ?_⟩
  rfl

/-- C3 (amended): provided the current blocked-region list has no duplicate
entries, each region in the current list and not in the previous list
occurs exactly once in the newly-blocked list rendered into the aggregate
region message, a region present in the previous list never occurs in it,
and the aggregate message occurs exactly once among the reported changes
(zero times when no region is newly blocked). -/
theorem detect_new_region_blocks_reported_once
    (current : YouTubeVideoInfo) (prev : PartialYouTubeVideoInfo)
    (pl : List String) (hp : prev.blockedRegions = some pl)
    (hnd : current.blockedRegions.Nodup) :
    (∀ r ∈ current.blockedRegions, r ∉ pl →
      (newBlockedRegionsOf current prev).count r = 1) ∧
    (∀ r ∈ pl, (newBlockedRegionsOf current prev).count r = 0) ∧
    (detectPotentialIssues current (some prev)).changes.count
        (newRegionBlocksMsg (newBlockedRegionsOf current prev)) =
      (if newBlockedRegionsOf current prev = [] then 0 else 1) := by
  have hfun : newBlockedRegionsOf current prev =
      current.blockedRegions.filter (fun r => ! pl.contains r) := by
    simp [newBlockedRegionsOf, hp]
  refine ⟨?_, ?_, ?_⟩
  · intro r hr hnp
    rw [hfun, List.count_filter (by simpa using hnp)]
    exact List.count_eq_one_of_mem hnd hr
  · intro r hr
    rw [hfun, List.count_eq_zero]
    intro hmem
    exact (by simpa using (List.mem_filter.mp hmem).2 : r ∉ pl) hr
  · have hrne_u : ∀ (rs : List String) (s : Option String),
        newRegionBlocksMsg rs ≠ uploadStatusChangedMsg s := fun rs s =>
      ne_of_data_head_ne
        (by rw [newRegionBlocksMsg_head, uploadStatusChangedMsg_head]; decide)
    have hrne_p : ∀ (rs : List String) (s : Option String),
        newRegionBlocksMsg rs ≠ privacyStatusChangedMsg s := fun rs s =>
      ne_of_data_head_ne
        (by rw [newRegionBlocksMsg_head, privacyStatusChangedMsg_head]; decide)
    by_cases hu : prev.uploadStatus = some "processed" ∧
        current.uploadStatus ≠ some "processed" <;>
      by_cases hpv : prev.privacyStatus = some "public" ∧
          current.privacyStatus ≠ some "public" <;>
        rcases hre : newBlockedRegionsOf current prev with _ | ⟨a, l⟩ <;>
          simp [detectPotentialIssues, hre, hu, hpv, List.count_append,
            List.count_cons, hrne_u, hrne_p]

/-- C8: the claimant-name normalizer maps the two spellings of Universal
Music Group — with and without punctuation and the dotted legal suffix —
to one normalized key. -/
theorem normalizeClaimantName_merges_suffix_variants :
    normalizeClaimantName "Universal Music Group, Inc." =
      normalizeClaimantName "universal music group inc" ∧
    normalizeClaimantName "Universal Music Group, Inc." =
      "universal music group" := by
  constructor <;> rfl

theorem detect_new_region_blocks_reported_once_witness :
    (newBlockedRegionsOf
        { blockedRegions := ["DE", "FR"] }
        { blockedRegions := some ["FR"] }).count "DE" = 1 :=
  (detect_new_region_blocks_reported_once
      { blockedRegions := ["DE", "FR"] } { blockedRegions := some ["FR"] }
      ["FR"] rfl (by decide)).1 "DE" (by decide) (by decide)

theorem parseIsoDuration_PT0S : parseIsoDuration "PT0S" = 0 := by
  rw [parseIsoDuration,
    show isoRegexMatch "PT0S".data = some (none, none, some ['0']) from by decide]
  show jsParseFloat ['0'] * 3600 + jsParseFloat ['0'] * 60 + jsParseFloat ['0'] = 0
  rw [show jsParseFloat ['0'] = ((0 : Nat) : ℚ) from rfl]
  norm_num

theorem parseIsoDuration_PT1M30S : parseIsoDuration "PT1M30S" = 90 := by
  rw [parseIsoDuration,
    show isoRegexMatch "PT1M30S".data = some (none, some ['1'], some ['3', '0'])
      from by decide]
  show jsParseFloat ['0'] * 3600 + jsParseFloat ['1'] * 60 +
    jsParseFloat ['3', '0'] = 90
  rw [show jsParseFloat ['0'] = ((0 : Nat) : ℚ) from rfl,
      show jsParseFloat ['1'] = ((1 : Nat) : ℚ) from rfl,
      show jsParseFloat ['3', '0'] = ((30 : Nat) : ℚ) from rfl]
  norm_num

theorem parseIsoDuration_half_ms : parseIsoDuration "PT0.0005S" = 1 / 2000 := by
  rw [parseIsoDuration,
    show isoRegexMatch "PT0.0005S".data =
      some (none, none, some ['0', '.', '0', '0', '0', '5']) from by decide]
  show jsParseFloat ['0'] * 3600 + jsParseFloat ['0'] * 60 +
      jsParseFloat ['0', '.', '0', '0', '0', '5'] = 1 / 2000
  rw [show jsParseFloat ['0'] = ((0 : Nat) : ℚ) from rfl,
      show jsParseFloat ['0', '.', '0', '0', '0', '5'] =
        ((0 : Nat) : ℚ) + ((5 : Nat) : ℚ) / (10 : ℚ) ^ 4 from rfl]
  norm_num

/-- C4 counterexample: a match segment whose duration strings are
malformed yields a zero-valued result, not `null`; and with fractional
second values (`0.0005 s` start and duration) the millisecond span of the
result is 0 while the parsed duration times 1000 rounds to 1 — so neither
the "malformed input returns null" part nor the span equation of the
claim holds for all inputs. -/
theorem parseMatchInfo_malformed_counterexample :
    (parseMatchInfo (some malformedDurationsInfo) ≠ none ∧
     parseMatchInfo (some malformedDurationsInfo) =
       some { matchStartMs := 0, matchEndMs := 0, matchDurationSecs := 0,
              matchType := "unknown" }) ∧
    ((parseMatchInfo (some fractionalDurationsInfo)).map
        (fun pm => pm.matchEndMs - pm.matchStartMs) = some 0 ∧
     round (parseIsoDuration "PT0.0005S" * 1000) = 1) := by
  have hb : parseIsoDuration (jsStringOr "bogus" "PT0S") = 0 := by
    rw [show jsStringOr "bogus" "PT0S" = "bogus" from by simp [jsStringOr],
      parseIsoDuration, show isoRegexMatch "bogus".data = none from by decide]
  have hg : parseIsoDuration (jsStringOr "garbage" "PT0S") = 0 := by
    rw [show jsStringOr "garbage" "PT0S" = "garbage" from by simp [jsStringOr],
      parseIsoDuration, show isoRegexMatch "garbage".data = none from by decide]
  have hf : parseIsoDuration (jsStringOr "PT0.0005S" "PT0S") = 1 / 2000 := by
    rw [show jsStringOr "PT0.0005S" "PT0S" = "PT0.0005S" from by simp [jsStringOr]]
    exact parseIsoDuration_half_ms
  refine ⟨⟨?_, ?_⟩, ?_, ?_⟩
  · simp [parseMatchInfo, malformedDurationsInfo]
  · simp only [parseMatchInfo, malformedDurationsInfo, hb, hg]
    norm_num [jsOrDefault]
  · simp only [parseMatchInfo, fractionalDurationsInfo, hf, Option.map_some']
    norm_num [round_eq]
  · rw [parseIsoDuration_half_ms, round_eq]; norm_num

/-- C4 (amended): for a first match segment with a video segment, the
millisecond span `matchEndMs - matchStartMs` equals the parsed duration
seconds times 1000 rounded to nearest, provided the start's millisecond
value is an integer; `PT1M30S` parses to 90 s and `PT0S` to 0 s; the
function returns `null` exactly for structurally missing input (no match
info, no/empty segment list, first segment without video segment); a
segment whose duration strings the regex does not match is parsed as 0
seconds, yielding a zero-valued result rather than `null`; and the
function is a total function — it never throws. -/
theorem parseMatchInfo_duration_semantics :
    (∀ (mi : MatchInfo) (segment : MatchSegment) (rest : List MatchSegment)
        (videoSegment : VideoSegment) (n : ℤ),
      mi.matchSegments = some (segment :: rest) →
      segment.video_segment = some videoSegment →
      parseIsoDuration (jsStringOr videoSegment.start "PT0S") * 1000 = (n : ℚ) →
      (parseMatchInfo (some mi)).map (fun pm => pm.matchEndMs - pm.matchStartMs) =
        some (round (parseIsoDuration (jsStringOr videoSegment.duration "PT0S") * 1000))) ∧
    parseIsoDuration "PT1M30S" = 90 ∧
    parseIsoDuration "PT0S" = 0 ∧
    parseMatchInfo none = none ∧
    (∀ mi : MatchInfo, mi.matchSegments = none → parseMatchInfo (some mi) = none) ∧
    (∀ mi : MatchInfo, mi.matchSegments = some [] → parseMatchInfo (some mi) = none) ∧
    (∀ (mi : MatchInfo) (segment : MatchSegment) (rest : List MatchSegment),
      mi.matchSegments = some (segment :: rest) → segment.video_segment = none →
      parseMatchInfo (some mi) = none) ∧
    (∀ (mi : MatchInfo) (segment : MatchSegment) (rest : List MatchSegment)
        (videoSegment : VideoSegment),
      mi.matchSegments = some (segment :: rest) →
      segment.video_segment = some videoSegment →
      isoRegexMatch (jsStringOr videoSegment.start "PT0S").data = none →
      isoRegexMatch (jsStringOr videoSegment.duration "PT0S").data = none →
      (parseMatchInfo (some mi)).map
        (fun pm => (pm.matchStartMs, pm.matchEndMs, pm.matchDurationSecs)) =
        some (0, 0, 0)) := by
  refine ⟨?_, parseIsoDuration_PT1M30S, parseIsoDuration_PT0S, rfl, ?_, ?_, ?_, ?_⟩
  · intro mi segment rest videoSegment n hseg hvs hn
    simp only [parseMatchInfo, hseg, hvs, Option.map_some', Option.some.injEq]
    have hsum : (parseIsoDuration (jsStringOr videoSegment.start "PT0S") +
        parseIsoDuration (jsStringOr videoSegment.duration "PT0S")) * 1000 =
        (n : ℚ) + parseIsoDuration (jsStringOr videoSegment.duration "PT0S") * 1000 := by
      rw [add_mul, hn]
    rw [hsum, hn,
      add_comm ((n : ℚ))
        (parseIsoDuration (jsStringOr videoSegment.duration "PT0S") * 1000),
      round_add_int, round_intCast]
    ring
  · intro mi h; simp [parseMatchInfo, h]
  · intro mi h; simp [parseMatchInfo, h]
  · intro mi segment rest hseg hvs; simp [parseMatchInfo, hseg, hvs]
  · intro mi segment rest videoSegment hseg hvs hst hdu
    have h1 : parseIsoDuration (jsStringOr videoSegment.start "PT0S") = 0 := by
      rw [parseIsoDuration, hst]
    have h2 : parseIsoDuration (jsStringOr videoSegment.duration "PT0S") = 0 := by
      rw [parseIsoDuration, hdu]
    simp only [parseMatchInfo, hseg, hvs, h1, h2, Option.map_some', Option.some.injEq]
    norm_num

theorem parseMatchInfo_duration_semantics_witness :
    (parseMatchInfo (some ninetySecondInfo)).map
      (fun pm => pm.matchEndMs - pm.matchStartMs) = some 90000 := by
  have h1 := parseMatchInfo_duration_semantics.1
    ninetySecondInfo { video_segment := some ninetySecondSegment } []
    ninetySecondSegment 0 rfl rfl
    (by rw [show jsStringOr ninetySecondSegment.start "PT0S" = "PT0S" from by
          simp [ninetySecondSegment, jsStringOr], parseIsoDuration_PT0S]
        norm_num)
  rw [h1, show jsStringOr ninetySecondSegment.duration "PT0S" = "PT1M30S" from by
      simp [ninetySecondSegment, jsStringOr], parseIsoDuration_PT1M30S,
    show ((90 : ℚ) * 1000) = ((90000 : ℤ) : ℚ) from by norm_num, round_intCast]

/-- C10: `appliedPolicy || policy` consults the fallback policy only when
`appliedPolicy` is entirely absent — with an `appliedPolicy` object
present the result is derived from it alone, and an `appliedPolicy`
without rules yields "unknown" regardless of any rules in `policy`. -/
theorem parsePolicyAction_prefers_appliedPolicy :
    (∀ (policy policy2 : Option PolicyObj) (ap : PolicyObj),
      parsePolicyAction policy (some ap) = parsePolicyAction policy2 (some ap)) ∧
    (∀ (policy : Option PolicyObj) (ap : PolicyObj),
      ap.rules = none ∨ ap.rules = some [] →
      parsePolicyAction policy (some ap) = "unknown") := by
  constructor
  · intro policy policy2 ap; rfl
  · intro policy ap h
    rcases h with h | h <;> simp [parsePolicyAction, h]

theorem parsePolicyAction_prefers_appliedPolicy_witness :
    parsePolicyAction (some { rules := some [{ action := some "block" }] })
      (some { rules := some [] }) = "unknown" :=
  parsePolicyAction_prefers_appliedPolicy.2
    (some { rules := some [{ action := some "block" }] })
    { rules := some [] } (Or.inr rfl)

/-- C1: recording a detected change is deduplicated against the currently
open event: a second identical recording while an ACTIVE event for the
(video, category, description) triple exists changes nothing; the
at-most-one-ACTIVE-event invariant per triple is preserved; and once no
ACTIVE event for the triple remains (e.g. it was resolved), an identical
detection appends a fresh ACTIVE event. -/
theorem recordDetectedChange_active_dedup
    (db : DB) (videoId : String) (ty : EventType) (change : String) :
    recordDetectedChange (recordDetectedChange db videoId ty change)
        videoId ty change =
      recordDetectedChange db videoId ty change ∧
    (db.events.countP (detectedChangeMatcher videoId ty change) ≤ 1 →
      (recordDetectedChange db videoId ty change).events.countP
        (detectedChangeMatcher videoId ty change) ≤ 1) ∧
    (db.events.find? (detectedChangeMatcher videoId ty change) = none →
      (recordDetectedChange db videoId ty change).events =
        db.events ++ [newDetectedEvent videoId ty change]) := by
  have hcreate : createCopyrightEvent db videoId ty change none =
      { db with events := db.events ++ [newDetectedEvent videoId ty change] } := rfl
  have hmatch : detectedChangeMatcher videoId ty change
      (newDetectedEvent videoId ty change) = true := by
    simp [detectedChangeMatcher, newDetectedEvent]
  refine ⟨?_, ?_, ?_⟩
  · cases hfind : db.events.find? (detectedChangeMatcher videoId ty change) with
    | some e =>
      have h1 : recordDetectedChange db videoId ty change = db := by
        rw [recordDetectedChange, hfind]
      rw [h1]; exact h1
    | none =>
      have h1 : recordDetectedChange db videoId ty change =
          { db with events := db.events ++ [newDetectedEvent videoId ty change] } := by
        rw [recordDetectedChange, hfind, hcreate]
      rw [h1, recordDetectedChange]
      have h2 : (({ db with
          events := db.events ++ [newDetectedEvent videoId ty change] } : DB).events).find?
            (detectedChangeMatcher videoId ty change) =
          some (newDetectedEvent videoId ty change) := by
        show (db.events ++ [newDetectedEvent videoId ty change]).find? _ = _
        rw [List.find?_append, hfind]
        simp [List.find?_cons, hmatch]
      rw [h2]
  · intro hle
    cases hfind : db.events.find? (detectedChangeMatcher videoId ty change) with
    | some e =>
      have h1 : recordDetectedChange db videoId ty change = db := by
        rw [recordDetectedChange, hfind]
      rw [h1]; exact hle
    | none =>
      have h1 : recordDetectedChange db videoId ty change =
          { db with events := db.events ++ [newDetectedEvent videoId ty change] } := by
        rw [recordDetectedChange, hfind, hcreate]
      rw [h1]
      have h0 : db.events.countP (detectedChangeMatcher videoId ty change) = 0 := by
        rw [List.countP_eq_zero]
        intro a ha
        simpa using List.find?_eq_none.mp hfind a ha
      show (db.events ++ [newDetectedEvent videoId ty change]).countP _ ≤ 1
      rw [List.countP_append, h0]
      simp [List.countP_cons, hmatch]
  · intro hfind
    rw [recordDetectedChange, hfind, hcreate]

theorem recordDetectedChange_active_dedup_witness :
    (recordDetectedChange emptyDB "video-1" EventType.REGION_RESTRICTION
        "New region blocks: DE").events =
      [newDetectedEvent "video-1" EventType.REGION_RESTRICTION
        "New region blocks: DE"] := by
  simpa using
    (recordDetectedChange_active_dedup emptyDB "video-1"
      EventType.REGION_RESTRICTION "New region blocks: DE").2.2 rfl

/-- Splitting lemma for the keyed update: the first row `find?` locates is
replaced in place, everything before it fails the predicate, everything
after it is untouched. -/
theorem updateFirst_spec (p : CopyrightEvent → Bool)
    (f : CopyrightEvent → CopyrightEvent) (l : List CopyrightEvent)
    (e : CopyrightEvent) (h : l.find? p = some e) :
    ∃ l1 l2, l = l1 ++ e :: l2 ∧ (∀ x ∈ l1, ¬ p x = true) ∧
      updateFirst p f l = l1 ++ f e :: l2 := by
  induction l with
  | nil => simp at h
  | cons a rest ih =>
    by_cases hp : p a
    · rw [List.find?_cons_of_pos _ hp, Option.some.injEq] at h
      subst h
      exact ⟨[], rest, by simp, by simp, by simp [updateFirst, hp]⟩
    · rw [List.find?_cons_of_neg _ hp] at h
      obtain ⟨l1, l2, hsplit, hfail, hupd⟩ := ih h
      refine ⟨a :: l1, l2, by simp [hsplit], ?_, by simp [updateFirst, hp, hupd]⟩
      intro x hx
      rcases List.mem_cons.mp hx with rfl | hx
      · simpa using hp
      · exact hfail x hx

/-- C2: reconciliation of a Content-ID claim — absent identifier: one row
is created whose category is STRIKE for a "block" policy action and CLAIM
otherwise, result NEW; present identifier: only (status, policyAction)
are compared, a difference updates exactly those fields plus the raw
payload (result UPDATED), equality leaves the store untouched (result
UNCHANGED); reconciling the same unchanged claim twice creates exactly
one row and the second run returns UNCHANGED. -/
theorem processContentIdClaim_reconciliation
    (db : DB) (claim : ContentIdClaim) (videoId : String) :
    (db.events.find? (fun e => e.youtubeClaimId == some claim.id) = none →
      processContentIdClaim db claim videoId =
        ({ db with events := db.events ++ [newClaimEvent claim videoId] },
         ReconcileResult.new) ∧
      (newClaimEvent claim videoId).type =
        (if parsePolicyAction claim.policy claim.appliedPolicy = "block"
         then EventType.STRIKE else EventType.CLAIM)) ∧
    (∀ e, db.events.find? (fun e2 => e2.youtubeClaimId == some claim.id) = some e →
      (e.status ≠ mapStatus claim.status ∨
        e.policyAction ≠ some (parsePolicyAction claim.policy claim.appliedPolicy)) →
      (processContentIdClaim db claim videoId).2 = ReconcileResult.updated ∧
      ∃ l1 l2, db.events = l1 ++ e :: l2 ∧
        (processContentIdClaim db claim videoId).1.events =
          l1 ++ updatedClaimFields claim e :: l2) ∧
    (∀ e, db.events.find? (fun e2 => e2.youtubeClaimId == some claim.id) = some e →
      e.status = mapStatus claim.status →
      e.policyAction = some (parsePolicyAction claim.policy claim.appliedPolicy) →
      processContentIdClaim db claim videoId = (db, ReconcileResult.unchanged)) ∧
    (db.events.find? (fun e => e.youtubeClaimId == some claim.id) = none →
      processContentIdClaim (processContentIdClaim db claim videoId).1 claim
          videoId =
        ((processContentIdClaim db claim videoId).1, ReconcileResult.unchanged) ∧
      (processContentIdClaim db claim videoId).1.events.countP
        (fun e => e.youtubeClaimId == some claim.id) = 1) := by
  have hkey : ((newClaimEvent claim videoId).youtubeClaimId == some claim.id) = true := by
    simp [newClaimEvent]
  have hnewcase : db.events.find? (fun e => e.youtubeClaimId == some claim.id) = none →
      processContentIdClaim db claim videoId =
        ({ db with events := db.events ++ [newClaimEvent claim videoId] },
         ReconcileResult.new) := by
    intro h
    simp only [processContentIdClaim, h]
    rfl
  refine ⟨fun h => ⟨hnewcase h, rfl⟩, ?_, ?_, ?_⟩
  · intro e hfind hne
    simp only [processContentIdClaim, hfind]
    rw [if_pos hne]
    obtain ⟨l1, l2, hsplit, _, hupd⟩ :=
      updateFirst_spec (fun e2 => e2.youtubeClaimId == some claim.id)
        (updatedClaimFields claim) db.events e hfind
    exact ⟨rfl, l1, l2, hsplit, hupd⟩
  · intro e hfind h1 h2
    simp only [processContentIdClaim, hfind]
    rw [if_neg (by simp [h1, h2])]
  · intro h
    rw [hnewcase h]
    have hfind2 : (db.events ++ [newClaimEvent claim videoId]).find?
        (fun e => e.youtubeClaimId == some claim.id) =
        some (newClaimEvent claim videoId) := by
      rw [List.find?_append, h]
      simp [List.find?_cons, hkey]
    constructor
    · simp only [processContentIdClaim, hfind2]
      rw [if_neg (by simp [newClaimEvent])]
    · have h0 : db.events.countP (fun e => e.youtubeClaimId == some claim.id) = 0 := by
        rw [List.countP_eq_zero]
        intro a ha
        simpa using List.find?_eq_none.mp h a ha
      show (db.events ++ [newClaimEvent claim videoId]).countP _ = 1
      rw [List.countP_append, h0]
      simp [List.countP_cons, hkey]

theorem processContentIdClaim_reconciliation_witness :
    processContentIdClaim
        (processContentIdClaim emptyDB blockClaim "video-1").1 blockClaim
        "video-1" =
      ((processContentIdClaim emptyDB blockClaim "video-1").1,
       ReconcileResult.unchanged) :=
  ((processContentIdClaim_reconciliation emptyDB blockClaim
      "video-1").2.2.2 rfl).1

/-- C5: the channel-sync update preserves an already-present
`previousState` unchanged, and backfills an absent one only from the old
stored column values, never from the fresh state; the claim-detect step
evaluates the diff against the stored baseline of the un-updated row
(when a snapshot is stored, against exactly that snapshot), and only its
final row update replaces `previousState` with the fresh snapshot. -/
theorem previousState_preserved_until_diff
    (video : Video) (info current : YouTubeVideoInfo)
    (ps : PartialYouTubeVideoInfo) :
    (video.previousState = some ps →
      (channelSyncUpdateVideo video info).previousState = some ps) ∧
    (video.previousState = none →
      (channelSyncUpdateVideo video info).previousState =
        some video.storedSnapshot) ∧
    (claimDetectStep video current).1 =
      detectPotentialIssues current (some (claimDetectPreviousState video)) ∧
    (video.previousState = some ps →
      (claimDetectStep video current).1 =
        detectPotentialIssues current (some ps)) ∧
    (claimDetectStep video current).2.previousState = some current.toPartial := by
  refine ⟨?_, ?_, rfl, ?_, rfl⟩
  · intro h; simp [channelSyncUpdateVideo, h]
  · intro h; simp [channelSyncUpdateVideo, h]
  · intro h
    simp [claimDetectStep, claimDetectPreviousState, h]

theorem previousState_preserved_until_diff_witness :
    (channelSyncUpdateVideo storedVideo currentBlockedDE).previousState =
      some prevEmptyRegions ∧
    (claimDetectStep storedVideo currentBlockedDE).1 =
      detectPotentialIssues currentBlockedDE (some prevEmptyRegions) :=
  ⟨(previousState_preserved_until_diff storedVideo currentBlockedDE
      currentBlockedDE prevEmptyRegions).1 rfl,
   (previousState_preserved_until_diff storedVideo currentBlockedDE
      currentBlockedDE prevEmptyRegions).2.2.2.1 rfl⟩

/-- C6 counterexample: with the batch `[badClaim, blockClaim]`, the
failure on `badClaim` makes the loop return the error immediately — the
well-formed `blockClaim` is not processed and no row is created for it —
whereas the same `blockClaim` alone is processed and creates its row. -/
theorem claimSync_batch_abort_counterexample :
    processClaimsLoop demoVideoIdMap failingProc [badClaim, blockClaim]
        emptyDB 0 0 0 =
      (emptyDB, Except.error "persistence failure") ∧
    (processClaimsLoop demoVideoIdMap failingProc [badClaim, blockClaim]
        emptyDB 0 0 0).1.events.countP
      (fun e => e.youtubeClaimId == some blockClaim.id) = 0 ∧
    (processClaimsLoop demoVideoIdMap failingProc [blockClaim]
        emptyDB 0 0 0).1.events.countP
      (fun e => e.youtubeClaimId == some blockClaim.id) = 1 := by
  exact ⟨rfl, by decide, by decide⟩

/-- C6 (amended): there is no per-claim error isolation — a failure while
processing one claim aborts the remainder of the batch: when a prefix of
the batch processes successfully and the next claim's processing fails,
the loop returns that error with the store as left by the prefix; the
claims after the failing one are never processed in that run, and the
error propagates to the surrounding job (whose catch records it and
rethrows, so the job-level retry applies). -/
theorem claimSync_failure_aborts_batch
    (videoIdMap : List (String × String))
    (proc : ContentIdClaim → String → DB → Except String (DB × ReconcileResult))
    (pre rest : List ContentIdClaim) (bad : ContentIdClaim)
    (db db1 : DB) (t n u t1 n1 u1 : Nat) (vid e : String)
    (hpre : processClaimsLoop videoIdMap proc pre db t n u =
      (db1, Except.ok (t1, n1, u1)))
    (hvid : (videoIdMap.find? (fun p => p.1 == bad.videoId)).map Prod.snd =
      some vid)
    (hfail : proc bad vid db1 = Except.error e) :
    processClaimsLoop videoIdMap proc (pre ++ bad :: rest) db t n u =
      (db1, Except.error e) := by
  induction pre generalizing db t n u with
  | nil =>
    rw [processClaimsLoop] at hpre
    have hdb : db = db1 := congrArg Prod.fst hpre
    subst hdb
    show processClaimsLoop videoIdMap proc (bad :: rest) db t n u = _
    simp only [processClaimsLoop, hvid, hfail]
  | cons c pre' ih =>
    rw [processClaimsLoop] at hpre
    show processClaimsLoop videoIdMap proc (c :: (pre' ++ bad :: rest)) db t n u = _
    rw [processClaimsLoop]
    cases hv : (videoIdMap.find? (fun p => p.1 == c.videoId)).map Prod.snd with
    | none =>
      simp only [hv] at hpre ⊢
      exact ih _ _ _ _ hpre
    | some v =>
      simp only [hv] at hpre ⊢
      cases hp : proc c v db with
      | error e2 =>
        simp only [hp] at hpre
        exact absurd (congrArg Prod.snd hpre) (by simp)
      | ok s =>
        simp only [hp] at hpre ⊢
        obtain ⟨db2, r⟩ := s
        cases r with
        | new => exact ih _ _ _ _ hpre
        | updated => exact ih _ _ _ _ hpre
        | unchanged => exact ih _ _ _ _ hpre

theorem claimSync_failure_aborts_batch_witness :
    processClaimsLoop demoVideoIdMap failingProc ([] ++ badClaim :: [blockClaim])
        emptyDB 0 0 0 =
      (emptyDB, Except.error "persistence failure") :=
  claimSync_failure_aborts_batch demoVideoIdMap failingProc [] [blockClaim]
    badClaim emptyDB emptyDB 0 0 0 0 0 0 "video-2" "persistence failure"
    rfl (by decide) rfl

end ClaimStriker
